import Mathlib

/-!
Shallow embedding of the blogging backend (`api/index.js` plus the mongoose
schemas in `api/models/`).  Request handlers are modelled as pure functions
from explicit state (user store, post store, upload directory) to a response
paired with the successor state; JavaScript faults (reference errors, thrown
jwt errors, member access on `null`) are modelled by `Except Fault`.
-/

/-- A JavaScript fault that aborts a handler before it sends a response. -/
inductive Fault
  /-- Reading a binding that is not defined in the global environment. -/
  | referenceError
  /-- An error produced by the jwt library and re-thrown by `throw err`. -/
  | jwtError
  /-- Member access on `null`/`undefined`. -/
  | typeError
  /-- `fs.renameSync` on a path that does not exist. -/
  | fsError
deriving DecidableEq, Repr

/-- The global environment of `api/index.js` as far as the handlers read it:
the only free binding they consult is `secret`. -/
structure Env where
  secret : Option String
deriving DecidableEq, Repr

/-- The environment the program actually runs in: line 16 of `api/index.js`
(`// const secret = 'Secret-Service';`) is a comment, so no binding named
`secret` is ever defined. -/
def runtimeEnv : Env := ⟨none⟩

/-- Payload signed into a JWT by the login handler: `{username, id:userDoc._id}`. -/
structure JwtPayload where
  username : String
  id : Nat
deriving DecidableEq, Repr

/-- Symbolic model of a signed JWT: the payload together with the key that
signed it.  Signature checking compares the verifying key with the signing
key, which models an unforgeable HMAC. -/
structure Token where
  payload : JwtPayload
  sig : String
deriving DecidableEq, Repr

def jwtSign (p : JwtPayload) (key : String) : Token := ⟨p, key⟩

def jwtVerify (t : Token) (key : String) : Option JwtPayload :=
  if t.sig = key then some t.payload else none

/-- Symbolic model of a bcrypt hash: `bcrypt.hashSync(password, salt)` embeds
the salt and the password; `compareSync` recomputes and compares. -/
structure BcryptHash where
  salt : Nat
  value : String
deriving DecidableEq, Repr

def hashSync (password : String) (salt : Nat) : BcryptHash := ⟨salt, password⟩

def compareSync (password : String) (h : BcryptHash) : Bool := h.value = password

/-- A document of the `users` collection (`api/models/User.js`): `_id` is
store-assigned, `password` holds the bcrypt hash. -/
structure User where
  id : Nat
  username : String
  password : BcryptHash
deriving DecidableEq, Repr

/-- The `users` collection with the store's id counter. -/
structure UserStore where
  users : List User
  nextId : Nat
deriving DecidableEq, Repr

/-- A rejection raised by `User.create`. -/
inductive StoreErr
  /-- A `required: true` path is missing or an empty string. -/
  | validationRequired
  /-- Insert hit the unique index on `username` (duplicate key). -/
  | duplicateKey
deriving DecidableEq, Repr

/-- `User.create` under the schema `{username: {type: String, required: true,
min: 4, unique: true}, password: {type: String, required: true}}`.
`required` on a String path rejects a missing or empty value; `unique: true`
builds a unique index, so a duplicate username is rejected by the database.
`min: 4` is a Number/Date validator: on a String path mongoose attaches no
validator for it, so no length check is performed. -/
def userCreate (st : UserStore) (username : String) (password : BcryptHash) :
    Except StoreErr (User × UserStore) :=
  if username.length = 0 then .error .validationRequired
  else if st.users.any (fun u => u.username = username) then .error .duplicateKey
  else
    let u : User := ⟨st.nextId, username, password⟩
    .ok (u, ⟨st.users ++ [u], st.nextId + 1⟩)

/-- Body of a `/register` response. -/
inductive RegisterBody
  /-- Success: the created user document, hash included. -/
  | user (u : User)
  /-- Failure: the raw store error, forwarded by the `catch` block. -/
  | storeError (e : StoreErr)
deriving DecidableEq, Repr

structure RegisterResp where
  status : Nat
  body : RegisterBody
deriving DecidableEq, Repr

/-- Handler of `POST /register` (`api/index.js` lines 35-48): salts and hashes
the password, calls `User.create`, returns the document, or the raw error
with status 400 on any store failure.  The random salt is a parameter. -/
def registerHandler (st : UserStore) (salt : Nat) (username password : String) :
    RegisterResp × UserStore :=
  match userCreate st username (hashSync password salt) with
  | .ok (u, st2) => (⟨200, .user u⟩, st2)
  | .error e => (⟨400, .storeError e⟩, st)

/-- Success body of `/login`: `{id: userDoc._id, username}`. -/
structure LoginOk where
  id : Nat
  username : String
deriving DecidableEq, Repr

inductive LoginBody
  | ok (b : LoginOk)
  | wrongCredentials
deriving DecidableEq, Repr

/-- A `/login` response: status, the `token` cookie if one was set, body. -/
structure LoginResp where
  status : Nat
  cookie : Option Token
  body : LoginBody
deriving DecidableEq, Repr

/-- Handler of `POST /login` (`api/index.js` lines 50-66).  `User.findOne`
on a username with no match yields `null` and the subsequent
`userDoc.password` faults; on a password match the handler evaluates the
free binding `secret` to sign the token, which faults when `secret` is
undefined. -/
def loginHandler (env : Env) (st : UserStore) (username password : String) :
    Except Fault LoginResp :=
  match st.users.find? (fun u => u.username = username) with
  | none => .error .typeError
  | some userDoc =>
    if compareSync password userDoc.password then
      match env.secret with
      | none => .error .referenceError
      | some s =>
        .ok ⟨200, some (jwtSign ⟨username, userDoc.id⟩ s), .ok ⟨userDoc.id, username⟩⟩
    else
      .ok ⟨400, none, .wrongCredentials⟩

structure ProfileResp where
  status : Nat
  body : JwtPayload
deriving DecidableEq, Repr

/-- Handler of `GET /profile` (`api/index.js` lines 69-75): evaluates
`secret` (fault when undefined), verifies the cookie token (a missing cookie
or a bad signature is an error re-thrown by `throw err`), and returns the
embedded payload. -/
def profileHandler (env : Env) (token : Option Token) : Except Fault ProfileResp :=
  match env.secret with
  | none => .error .referenceError
  | some s =>
    match token with
    | none => .error .jwtError
    | some t =>
      match jwtVerify t s with
      | none => .error .jwtError
      | some info => .ok ⟨200, info⟩

/-- A document of the `posts` collection (`api/models/Post.js`); `createdAt`
comes from `timestamps: true` and is assigned on creation. -/
structure Post where
  id : Nat
  title : String
  summary : String
  content : String
  cover : String
  author : Nat
  createdAt : Nat
deriving DecidableEq, Repr

/-- The `posts` collection with the store's id and timestamp counters; the
timestamp counter makes creation times strictly increase. -/
structure PostStore where
  posts : List Post
  nextId : Nat
  nextTime : Nat
deriving DecidableEq, Repr

/-- `Post.create`: appends a new document with store-assigned id and
creation timestamp. -/
def postCreate (st : PostStore) (title summary content cover : String)
    (author : Nat) : Post × PostStore :=
  let p : Post := ⟨st.nextId, title, summary, content, cover, author, st.nextTime⟩
  (p, ⟨st.posts ++ [p], st.nextId + 1, st.nextTime + 1⟩)

/-- The multer upload: original client-side filename and the generated
path the raw bytes were stored under. -/
structure UploadedFile where
  originalname : String
  path : String
deriving DecidableEq, Repr

/-- The uploads directory: an association of paths to file contents
(contents stand for opaque byte blobs, named by a number). -/
abbrev FileSys := List (String × Nat)

/-- `fs.renameSync`: moves the entry at `oldPath` to `newPath2`; throws when
no file exists at `oldPath`. -/
def renameSync (fs : FileSys) (oldPath newPath2 : String) : Except Fault FileSys :=
  match fs.find? (fun e => e.1 = oldPath) with
  | none => .error .fsError
  | some e => .ok ((fs.filter (fun x => x.1 != oldPath)) ++ [(newPath2, e.2)])

/-- JavaScript `string.split(sep)` for a one-character separator, on the
character list of the string. -/
def splitChar (sep : Char) : List Char → List (List Char)
  | [] => [[]]
  | c :: cs =>
    if c = sep then [] :: splitChar sep cs
    else
      match splitChar sep cs with
      | [] => [[c]]
      | r :: rs => (c :: r) :: rs

/-- Lines 84-87 (and 110-113) of `api/index.js`: `originalname.split('.')`,
take the last part as the extension, append it to the generated path. -/
def renamedPath (f : UploadedFile) : String :=
  f.path ++ "." ++ String.mk ((splitChar '.' f.originalname.toList).getLastD [])

structure CreatePostResp where
  status : Nat
  body : Post
deriving DecidableEq, Repr

/-- Handler of `POST /post` (`api/index.js` lines 82-104): destructures
`req.file` (fault when absent), renames the upload to carry the original
extension, evaluates `secret` (fault when undefined), verifies the token,
and creates the post with `cover` the renamed path and `author` the
token's user id. -/
def createPostHandler (env : Env) (fs : FileSys) (st : PostStore)
    (file : Option UploadedFile) (token : Option Token)
    (title summary content : String) :
    Except Fault (CreatePostResp × FileSys × PostStore) :=
  match file with
  | none => .error .typeError
  | some f =>
    match renameSync fs f.path (renamedPath f) with
    | .error e => .error e
    | .ok fs2 =>
      match env.secret with
      | none => .error .referenceError
      | some s =>
        match token with
        | none => .error .jwtError
        | some t =>
          match jwtVerify t s with
          | none => .error .jwtError
          | some info =>
            let pr := postCreate st title summary content (renamedPath f) info.id
            .ok (⟨200, pr.1⟩, fs2, pr.2)

inductive UpdateBody
  /-- Success: the handler returns the document it loaded before updating. -/
  | post (p : Post)
  /-- The 400 body `'you are not the author'`. -/
  | notAuthor
deriving DecidableEq, Repr

structure UpdateResp where
  status : Nat
  body : UpdateBody
deriving DecidableEq, Repr

/-- `postDoc.update({title, summary, content, cover})`: rewrites the four
mutable fields of the document with the matching id, keeping its id, author
and creation timestamp. -/
def postUpdate (st : PostStore) (postId : Nat)
    (title summary content cover : String) : PostStore :=
  ⟨st.posts.map (fun p =>
      if p.id = postId then ⟨p.id, title, summary, content, cover, p.author, p.createdAt⟩
      else p),
   st.nextId, st.nextTime⟩

/-- Handler of `PUT /post` (`api/index.js` lines 107-136): renames the upload
only when a file is present (leaving `newPath` null otherwise), evaluates
`secret`, verifies the token, loads the post (`null` means the later field
access faults), rejects with 400 when the token id differs from the post's
author, and otherwise updates the document, keeping the old cover when no
file was uploaded. -/
def updatePostHandler (env : Env) (fs : FileSys) (st : PostStore)
    (file : Option UploadedFile) (token : Option Token)
    (postId : Nat) (title summary content : String) :
    Except Fault (UpdateResp × FileSys × PostStore) :=
  let step : Except Fault (Option String × FileSys) :=
    match file with
    | none => .ok (none, fs)
    | some f =>
      match renameSync fs f.path (renamedPath f) with
      | .error e => .error e
      | .ok fs2 => .ok (some (renamedPath f), fs2)
  match step with
  | .error e => .error e
  | .ok (newPath, fs2) =>
    match env.secret with
    | none => .error .referenceError
    | some s =>
      match token with
      | none => .error .jwtError
      | some t =>
        match jwtVerify t s with
        | none => .error .jwtError
        | some info =>
          match st.posts.find? (fun p => p.id = postId) with
          | none => .error .typeError
          | some postDoc =>
            if postDoc.author = info.id then
              let cover := match newPath with
                | some np => np
                | none => postDoc.cover
              .ok (⟨200, .post postDoc⟩, fs2, postUpdate st postId title summary content cover)
            else
              .ok (⟨400, .notAuthor⟩, fs2, st)

/-- The author reference after `populate('author', ['username'])`: the
selected `username` plus the `_id` mongoose always includes. -/
structure AuthorView where
  id : Nat
  username : String
deriving DecidableEq, Repr

/-- A post as returned by the read endpoints: its fields, with the author
reference resolved to an `AuthorView` (no password field exists here). -/
structure PopulatedPost where
  id : Nat
  title : String
  summary : String
  content : String
  cover : String
  author : Option AuthorView
  createdAt : Nat
deriving DecidableEq, Repr

def populateAuthor (users : List User) (p : Post) : PopulatedPost :=
  ⟨p.id, p.title, p.summary, p.content, p.cover,
   (users.find? (fun u => u.id = p.author)).map (fun u => ⟨u.id, u.username⟩),
   p.createdAt⟩

/-- Handler of `GET /post` (`api/index.js` lines 139-146):
`Post.find().populate('author',['username']).sort({createdAt:-1}).limit(20)`. -/
def listPostsHandler (ust : UserStore) (pst : PostStore) :
    Nat × List PopulatedPost :=
  (200,
   ((pst.posts.mergeSort (fun a b => b.createdAt ≤ a.createdAt)).take 20).map
     (populateAuthor ust.users))

/-- Handler of `GET /post/:id` (`api/index.js` lines 149-153): `findById`
plus populate; an absent id yields `null`, serialized as the body of a
200 response. -/
def getPostHandler (ust : UserStore) (pst : PostStore) (postId : Nat) :
    Nat × Option PopulatedPost :=
  (200, (pst.posts.find? (fun p => p.id = postId)).map (populateAuthor ust.users))

/-- A store that grew by `n` post creations from empty. -/
def createN : Nat → PostStore
  | 0 => ⟨[], 0, 0⟩
  | n + 1 => (postCreate (createN n) "t" "s" "c" "cv" 0).2

/-- C1: every PUT /post request carrying a valid token whose userId differs
from the loaded post's authorId gets HTTP 400 with body "you are not the
author", and the post store is returned unchanged, so the stored record's
title, summary, content, cover and author are untouched. -/
theorem update_by_non_author_rejected
    (env : Env) (s : String) (fs : FileSys) (st : PostStore)
    (file : Option UploadedFile) (info : JwtPayload)
    (postId : Nat) (title summary content : String) (postDoc : Post)
    (hs : env.secret = some s)
    (hfile : file = none ∨
      ∃ f fs2, file = some f ∧ renameSync fs f.path (renamedPath f) = .ok fs2)
    (hfind : st.posts.find? (fun p => p.id = postId) = some postDoc)
    (hne : postDoc.author ≠ info.id) :
    ∃ fs2, updatePostHandler env fs st file (some (jwtSign info s))
        postId title summary content
      = .ok (⟨400, .notAuthor⟩, fs2, st) := by
  rcases hfile with h | ⟨f, fs2, hf, hr⟩
  · exact ⟨fs, by simp [updatePostHandler, h, hs, jwtVerify, jwtSign, hfind, hne]⟩
  · exact ⟨fs2, by simp [updatePostHandler, hf, hr, hs, jwtVerify, jwtSign, hfind, hne]⟩

/-- Witness for C1 at a concrete state: one stored post authored by user 5,
updated with a token of user 7. -/
theorem update_by_non_author_rejected_witness :
    ∃ fs2, updatePostHandler ⟨some "k"⟩ [] ⟨[⟨0, "t", "s", "c", "cv", 5, 0⟩], 1, 1⟩
        none (some (jwtSign ⟨"bob", 7⟩ "k")) 0 "T" "S" "C"
      = .ok (⟨400, .notAuthor⟩, fs2, ⟨[⟨0, "t", "s", "c", "cv", 5, 0⟩], 1, 1⟩) :=
  update_by_non_author_rejected ⟨some "k"⟩ "k" [] ⟨[⟨0, "t", "s", "c", "cv", 5, 0⟩], 1, 1⟩
    none ⟨"bob", 7⟩ 0 "T" "S" "C" ⟨0, "t", "s", "c", "cv", 5, 0⟩ rfl (Or.inl rfl)
    (by decide) (by decide)

/-- C2: in the runtime environment, where the definition of `secret` is
commented out, every operation that signs or verifies a token faults with a
reference error instead of completing: login on a password match, profile,
create post, and update post. -/
theorem secret_undefined_faults
    (ust : UserStore) (un pw : String) (u : User) (fs : FileSys) (pst : PostStore)
    (f : UploadedFile) (fs2 : FileSys) (token : Option Token)
    (postId : Nat) (title summary content : String)
    (hfind : ust.users.find? (fun x => x.username = un) = some u)
    (hpw : compareSync pw u.password = true)
    (hrename : renameSync fs f.path (renamedPath f) = .ok fs2) :
    loginHandler runtimeEnv ust un pw = .error .referenceError
  ∧ profileHandler runtimeEnv token = .error .referenceError
  ∧ createPostHandler runtimeEnv fs pst (some f) token title summary content
      = .error .referenceError
  ∧ updatePostHandler runtimeEnv fs pst none token postId title summary content
      = .error .referenceError := by
  refine ⟨?_, ?_, ?_, ?_⟩ <;>
    simp [loginHandler, profileHandler, createPostHandler, updatePostHandler,
      runtimeEnv, hfind, hpw, hrename]

/-- Witness for C2: a registered user with a matching password, a stored
upload, and an arbitrary cookie; all four handlers fault. -/
theorem secret_undefined_faults_witness :
    loginHandler runtimeEnv ⟨[⟨0, "alice", hashSync "pw" 3⟩], 1⟩ "alice" "pw"
      = .error .referenceError
  ∧ profileHandler runtimeEnv none = .error .referenceError
  ∧ createPostHandler runtimeEnv [("up/x", 0)] ⟨[], 0, 0⟩ (some ⟨"a.png", "up/x"⟩)
      none "T" "S" "C" = .error .referenceError
  ∧ updatePostHandler runtimeEnv [("up/x", 0)] ⟨[], 0, 0⟩ none none 0 "T" "S" "C"
      = .error .referenceError :=
  secret_undefined_faults ⟨[⟨0, "alice", hashSync "pw" 3⟩], 1⟩ "alice" "pw"
    ⟨0, "alice", hashSync "pw" 3⟩ [("up/x", 0)] ⟨[], 0, 0⟩ ⟨"a.png", "up/x"⟩
    ([("up/x.png", 0)]) none 0 "T" "S" "C" (by decide) (by decide) rfl

/-- C4: a login whose username is found and whose password matches the
stored hash signs a token embedding the request username and the found
user's store-assigned id, sets it as the cookie, and returns
`{id, username}`; the found user's username equals the request username. -/
theorem login_success_token
    (env : Env) (s : String) (st : UserStore) (un pw : String) (u : User)
    (hs : env.secret = some s)
    (hfind : st.users.find? (fun x => x.username = un) = some u)
    (hpw : compareSync pw u.password = true) :
    loginHandler env st un pw
      = .ok ⟨200, some (jwtSign ⟨un, u.id⟩ s), .ok ⟨u.id, un⟩⟩
  ∧ un = u.username := by
  have hu := List.find?_some hfind
  simp only [decide_eq_true_eq] at hu
  exact ⟨by simp [loginHandler, hs, hfind, hpw], hu.symm⟩

/-- Witness for C4 at a concrete store. -/
theorem login_success_token_witness :
    loginHandler ⟨some "k"⟩ ⟨[⟨4, "alice", hashSync "pw" 3⟩], 5⟩ "alice" "pw"
      = .ok ⟨200, some (jwtSign ⟨"alice", 4⟩ "k"), .ok ⟨4, "alice"⟩⟩
  ∧ "alice" = "alice" :=
  login_success_token ⟨some "k"⟩ "k" ⟨[⟨4, "alice", hashSync "pw" 3⟩], 5⟩ "alice" "pw"
    ⟨4, "alice", hashSync "pw" 3⟩ rfl (by decide) (by decide)

/-- C5: a login whose username is found but whose password fails the hash
comparison returns HTTP 400 with body "wrong credentials" and sets no
token cookie (this branch never touches `secret`, so it holds in every
environment). -/
theorem login_wrong_password
    (env : Env) (st : UserStore) (un pw : String) (u : User)
    (hfind : st.users.find? (fun x => x.username = un) = some u)
    (hpw : compareSync pw u.password = false) :
    loginHandler env st un pw = .ok ⟨400, none, .wrongCredentials⟩ := by
  simp [loginHandler, hfind, hpw]

/-- Witness for C5 at a concrete store. -/
theorem login_wrong_password_witness :
    loginHandler runtimeEnv ⟨[⟨4, "alice", hashSync "pw" 3⟩], 5⟩ "alice" "nope"
      = .ok ⟨400, none, .wrongCredentials⟩ :=
  login_wrong_password runtimeEnv ⟨[⟨4, "alice", hashSync "pw" 3⟩], 5⟩ "alice" "nope"
    ⟨4, "alice", hashSync "pw" 3⟩ (by decide) (by decide)

/-- C6: when the store already holds exactly one user of a (non-empty)
username, registering that username again is rejected by the unique index,
the handler surfaces the raw store error with HTTP 400, and the store still
holds exactly one user of that username. -/
theorem duplicate_register_rejected
    (st : UserStore) (salt : Nat) (un pw : String)
    (hlen : 0 < un.length)
    (hcount : st.users.countP (fun u => u.username = un) = 1) :
    registerHandler st salt un pw = (⟨400, .storeError .duplicateKey⟩, st)
  ∧ (registerHandler st salt un pw).2.users.countP (fun u => u.username = un) = 1 := by
  have hne : ¬ un.length = 0 := by omega
  have hany : st.users.any (fun u => u.username = un) = true := by
    rw [List.any_eq_true]
    exact List.countP_pos_iff.mp (by omega)
  have h1 : registerHandler st salt un pw = (⟨400, .storeError .duplicateKey⟩, st) := by
    simp [registerHandler, userCreate, hne, hany]
  exact ⟨h1, by rw [h1]; exact hcount⟩

/-- Witness for C6: a second registration of "alice" is rejected. -/
theorem duplicate_register_rejected_witness :
    registerHandler ⟨[⟨0, "alice", hashSync "pw" 3⟩], 1⟩ 9 "alice" "other"
      = (⟨400, .storeError .duplicateKey⟩, ⟨[⟨0, "alice", hashSync "pw" 3⟩], 1⟩)
  ∧ (registerHandler ⟨[⟨0, "alice", hashSync "pw" 3⟩], 1⟩ 9 "alice" "other").2.users.countP
      (fun u => u.username = "alice") = 1 :=
  duplicate_register_rejected ⟨[⟨0, "alice", hashSync "pw" 3⟩], 1⟩ 9 "alice" "other"
    (by decide) (by decide)

/-- C8: a GET /post/:id for an id held by no stored post returns status 200
with a null body, not a 404. -/
theorem get_absent_post_null
    (ust : UserStore) (pst : PostStore) (postId : Nat)
    (habsent : ∀ p ∈ pst.posts, p.id ≠ postId) :
    getPostHandler ust pst postId = (200, none) := by
  have hnone : pst.posts.find? (fun p => p.id = postId) = none :=
    List.find?_eq_none.mpr (by simpa using habsent)
  simp [getPostHandler, hnone]

/-- Witness for C8: fetching id 9 from a store holding only id 0. -/
theorem get_absent_post_null_witness :
    getPostHandler ⟨[], 0⟩ ⟨[⟨0, "t", "s", "c", "cv", 5, 0⟩], 1, 1⟩ 9 = (200, none) :=
  get_absent_post_null ⟨[], 0⟩ ⟨[⟨0, "t", "s", "c", "cv", 5, 0⟩], 1, 1⟩ 9 (by decide)

/-- C9 (code bug): the schema writes `min: 4` on the String path `username`,
which mongoose ignores, so registering the 3-character username "abc"
succeeds and stores the user, against the stated minimum length of 4. -/
theorem short_username_created :
    registerHandler ⟨[], 0⟩ 7 "abc" "pw"
      = (⟨200, .user ⟨0, "abc", hashSync "pw" 7⟩⟩, ⟨[⟨0, "abc", hashSync "pw" 7⟩], 1⟩)
  ∧ "abc".length < 4 := by
  exact ⟨by decide, by decide⟩

/-- Updating the fields of the document with a given id commutes with
looking that id up: the lookup returns the found document with its four
mutable fields rewritten. -/
theorem find?_map_setFields (l : List Post) (postId : Nat)
    (title summary content cover : String) (p : Post)
    (h : l.find? (fun q => q.id = postId) = some p) :
    (l.map (fun q =>
        if q.id = postId
        then (⟨q.id, title, summary, content, cover, q.author, q.createdAt⟩ : Post)
        else q)).find? (fun q => q.id = postId)
      = some ⟨p.id, title, summary, content, cover, p.author, p.createdAt⟩ := by
  induction l with
  | nil => simp at h
  | cons a l ih =>
    by_cases ha : a.id = postId
    · rw [List.find?_cons_of_pos _ (by simpa using ha)] at h
      injection h with h
      subst h
      simp [ha, List.find?_cons_of_pos]
    · rw [List.find?_cons_of_neg _ (by simpa using ha)] at h
      have := ih h
      simpa [List.map_cons, ha, List.find?_cons_of_neg] using this

/-- C7: an authorized PUT /post (token userId equals the post's authorId)
with no uploaded file keeps the post's cover path and sets title, summary
and content to the supplied values; with an uploaded file the cover path is
replaced by the renamed upload path. -/
theorem update_by_author_cover_frame
    (env : Env) (s : String) (fs : FileSys) (st : PostStore) (info : JwtPayload)
    (postId : Nat) (title summary content : String) (postDoc : Post)
    (hs : env.secret = some s)
    (hfind : st.posts.find? (fun p => p.id = postId) = some postDoc)
    (hauth : postDoc.author = info.id) :
    (updatePostHandler env fs st none (some (jwtSign info s)) postId title summary content
        = .ok (⟨200, .post postDoc⟩, fs,
            postUpdate st postId title summary content postDoc.cover)
      ∧ (postUpdate st postId title summary content postDoc.cover).posts.find?
          (fun p => p.id = postId)
        = some ⟨postDoc.id, title, summary, content, postDoc.cover,
            postDoc.author, postDoc.createdAt⟩)
  ∧ ∀ f fs2, renameSync fs f.path (renamedPath f) = .ok fs2 →
      (updatePostHandler env fs st (some f) (some (jwtSign info s)) postId title summary content
        = .ok (⟨200, .post postDoc⟩, fs2,
            postUpdate st postId title summary content (renamedPath f))
      ∧ (postUpdate st postId title summary content (renamedPath f)).posts.find?
          (fun p => p.id = postId)
        = some ⟨postDoc.id, title, summary, content, renamedPath f,
            postDoc.author, postDoc.createdAt⟩) := by
  refine ⟨⟨?_, ?_⟩, fun f fs2 hr => ⟨?_, ?_⟩⟩
  · simp [updatePostHandler, hs, jwtVerify, jwtSign, hfind, hauth]
  · exact find?_map_setFields st.posts postId title summary content postDoc.cover postDoc hfind
  · simp [updatePostHandler, hr, hs, jwtVerify, jwtSign, hfind, hauth]
  · exact find?_map_setFields st.posts postId title summary content (renamedPath f)
      postDoc hfind

/-- Witness for C7: one stored post of author 7, updated with a token of
user 7, once without and once with an uploaded file. -/
theorem update_by_author_cover_frame_witness :
    updatePostHandler ⟨some "k"⟩ [("up/x", 3)] ⟨[⟨0, "t", "s", "c", "cv", 7, 0⟩], 1, 1⟩
        none (some (jwtSign ⟨"bob", 7⟩ "k")) 0 "T" "S" "C"
      = .ok (⟨200, .post ⟨0, "t", "s", "c", "cv", 7, 0⟩⟩, [("up/x", 3)],
          postUpdate ⟨[⟨0, "t", "s", "c", "cv", 7, 0⟩], 1, 1⟩ 0 "T" "S" "C" "cv")
  ∧ updatePostHandler ⟨some "k"⟩ [("up/x", 3)] ⟨[⟨0, "t", "s", "c", "cv", 7, 0⟩], 1, 1⟩
        (some ⟨"a.png", "up/x"⟩) (some (jwtSign ⟨"bob", 7⟩ "k")) 0 "T" "S" "C"
      = .ok (⟨200, .post ⟨0, "t", "s", "c", "cv", 7, 0⟩⟩, [("up/x.png", 3)],
          postUpdate ⟨[⟨0, "t", "s", "c", "cv", 7, 0⟩], 1, 1⟩ 0 "T" "S" "C"
            (renamedPath ⟨"a.png", "up/x"⟩)) :=
  ⟨(update_by_author_cover_frame ⟨some "k"⟩ "k" [("up/x", 3)]
      ⟨[⟨0, "t", "s", "c", "cv", 7, 0⟩], 1, 1⟩ ⟨"bob", 7⟩ 0 "T" "S" "C"
      ⟨0, "t", "s", "c", "cv", 7, 0⟩ rfl (by decide) (by decide)).1.1,
   ((update_by_author_cover_frame ⟨some "k"⟩ "k" [("up/x", 3)]
      ⟨[⟨0, "t", "s", "c", "cv", 7, 0⟩], 1, 1⟩ ⟨"bob", 7⟩ 0 "T" "S" "C"
      ⟨0, "t", "s", "c", "cv", 7, 0⟩ rfl (by decide) (by decide)).2
      ⟨"a.png", "up/x"⟩ [("up/x.png", 3)] rfl).1⟩

/-- C3: when the stored posts carry pairwise distinct creation times (as the
store's timestamp counter guarantees), the GET /post response has at most 20
posts, is ordered by strictly descending creation time, and resolves each
author reference to the referenced user's id and username only (the
response type carries no password field); listing after 25 creations
returns exactly 20 posts. -/
theorem list_posts_spec
    (ust : UserStore) (pst : PostStore)
    (hdistinct : pst.posts.Pairwise (fun a b => a.createdAt ≠ b.createdAt)) :
    (listPostsHandler ust pst).2.length ≤ 20
  ∧ (listPostsHandler ust pst).2.Pairwise (fun a b => b.createdAt < a.createdAt)
  ∧ (∀ q ∈ (listPostsHandler ust pst).2, ∀ a, q.author = some a →
      ∃ u ∈ ust.users, a.id = u.id ∧ a.username = u.username)
  ∧ (listPostsHandler ust (createN 25)).2.length = 20 := by
  refine ⟨?_, ?_, ?_, ?_⟩
  · simp only [listPostsHandler, List.length_map, List.length_take]
    omega
  · have hsort := @List.sorted_mergeSort Post
      (fun a b => decide (b.createdAt ≤ a.createdAt))
      (fun a b c h1 h2 => by
        simp only [decide_eq_true_eq] at h1 h2 ⊢; omega)
      (fun a b => by
        simp only [Bool.or_eq_true, decide_eq_true_eq]
        exact Nat.le_total b.createdAt a.createdAt)
      pst.posts
    have hsort2 : (pst.posts.mergeSort (fun a b => b.createdAt ≤ a.createdAt)).Pairwise
        (fun a b => b.createdAt ≤ a.createdAt) :=
      List.Pairwise.imp (fun h => of_decide_eq_true h) hsort
    have hperm := List.mergeSort_perm pst.posts (fun a b => b.createdAt ≤ a.createdAt)
    have hdis2 : (pst.posts.mergeSort (fun a b => b.createdAt ≤ a.createdAt)).Pairwise
        (fun a b => a.createdAt ≠ b.createdAt) :=
      (hperm.pairwise_iff (fun h => h.symm)).mpr hdistinct
    have hlt : (pst.posts.mergeSort (fun a b => b.createdAt ≤ a.createdAt)).Pairwise
        (fun a b => b.createdAt < a.createdAt) :=
      List.Pairwise.imp (fun h => lt_of_le_of_ne h.1 (fun e => h.2 e.symm))
        (hsort2.and hdis2)
    have htake := List.Pairwise.sublist (List.take_sublist 20 _) hlt
    exact List.Pairwise.map (populateAuthor ust.users) (fun a b h => h) htake
  · intro q hq a ha
    simp only [listPostsHandler, List.mem_map] at hq
    obtain ⟨p, _, rfl⟩ := hq
    simp only [populateAuthor, Option.map_eq_some'] at ha
    obtain ⟨u, hfu, rfl⟩ := ha
    exact ⟨u, List.mem_of_find?_eq_some hfu, rfl, rfl⟩
  · have h25 : (createN 25).posts.length = 25 := by decide
    simp [listPostsHandler, List.length_take, List.length_mergeSort, h25]

/-- Witness for C3: a store holding two posts with distinct creation times,
plus the 25-creation store. -/
theorem list_posts_spec_witness :
    (listPostsHandler ⟨[], 0⟩
        ⟨[⟨0, "t", "s", "c", "cv", 5, 0⟩, ⟨1, "t", "s", "c", "cv", 5, 1⟩], 2, 2⟩).2.length ≤ 20
  ∧ (listPostsHandler ⟨[], 0⟩ (createN 25)).2.length = 20 :=
  ⟨(list_posts_spec ⟨[], 0⟩
      ⟨[⟨0, "t", "s", "c", "cv", 5, 0⟩, ⟨1, "t", "s", "c", "cv", 5, 1⟩], 2, 2⟩
      (by decide)).1,
   (list_posts_spec ⟨[], 0⟩
      ⟨[⟨0, "t", "s", "c", "cv", 5, 0⟩, ⟨1, "t", "s", "c", "cv", 5, 1⟩], 2, 2⟩
      (by decide)).2.2.2⟩

/-- A split never produces an empty list of parts. -/
theorem splitChar_ne_nil (sep : Char) (l : List Char) : splitChar sep l ≠ [] := by
  cases l with
  | nil => simp [splitChar]
  | cons c cs =>
    by_cases h : c = sep
    · simp [splitChar, h]
    · simp only [splitChar, if_neg h]
      cases splitChar sep cs <;> simp

/-- Splitting at a leading separator prepends an empty part. -/
theorem splitChar_cons_self (sep : Char) (l : List Char) :
    splitChar sep (sep :: l) = [] :: splitChar sep l := by
  simp [splitChar]

/-- Splitting after a non-separator character extends the first part. -/
theorem splitChar_cons_ne (sep c : Char) (l : List Char) (h : ¬ c = sep) :
    splitChar sep (c :: l)
      = (c :: (splitChar sep l).headD []) :: (splitChar sep l).tail := by
  cases hc : splitChar sep l with
  | nil => exact absurd hc (splitChar_ne_nil sep l)
  | cons r rs => simp [splitChar, h, hc]

/-- A string without the separator is a single part. -/
theorem splitChar_not_mem (sep : Char) (l : List Char) (h : sep ∉ l) :
    splitChar sep l = [l] := by
  induction l with
  | nil => simp [splitChar]
  | cons c cs ih =>
    have hc : ¬ c = sep := by
      rintro rfl
      exact h (List.mem_cons_self c cs)
    have hcs : sep ∉ cs := fun m => h (List.mem_cons_of_mem c m)
    rw [splitChar_cons_ne sep c cs hc, ih hcs]
    simp

/-- Splitting a string that contains the separator yields at least two
parts, and the last part only depends on what follows the separator. -/
theorem splitChar_sep_getLast? (sep : Char) (xs ys : List Char) :
    2 ≤ (splitChar sep (xs ++ sep :: ys)).length
  ∧ (splitChar sep (xs ++ sep :: ys)).getLast? = (splitChar sep ys).getLast? := by
  induction xs with
  | nil =>
    rw [List.nil_append, splitChar_cons_self]
    cases hc : splitChar sep ys with
    | nil => exact absurd hc (splitChar_ne_nil sep ys)
    | cons r rs => exact ⟨by simp [hc], by simp [hc, List.getLast?_cons_cons]⟩
  | cons c cs ih =>
    obtain ⟨ihlen, ihlast⟩ := ih
    rw [List.cons_append]
    by_cases h : c = sep
    · rw [h, splitChar_cons_self]
      cases hc : splitChar sep (cs ++ sep :: ys) with
      | nil => exact absurd hc (splitChar_ne_nil sep (cs ++ sep :: ys))
      | cons r rs =>
        refine ⟨by simp, ?_⟩
        rw [List.getLast?_cons_cons, ← hc, ihlast]
    · rw [splitChar_cons_ne sep c (cs ++ sep :: ys) h]
      cases hc : splitChar sep (cs ++ sep :: ys) with
      | nil => exact absurd hc (splitChar_ne_nil sep (cs ++ sep :: ys))
      | cons r rs =>
        rw [hc] at ihlen ihlast
        cases rs with
        | nil => simp at ihlen
        | cons r2 rs2 =>
          refine ⟨by simp, ?_⟩
          simp only [List.headD_cons, List.tail_cons]
          rw [List.getLast?_cons_cons, ← ihlast, List.getLast?_cons_cons]

/-- The last part of a split at the separator is the suffix after the last
separator occurrence. -/
theorem getLastD_splitChar_ext (sep : Char) (base suffix : List Char)
    (h : sep ∉ suffix) :
    (splitChar sep (base ++ sep :: suffix)).getLastD [] = suffix := by
  rw [List.getLastD_eq_getLast?, (splitChar_sep_getLast? sep base suffix).2,
    splitChar_not_mem sep suffix h]
  rfl

/-- C10: a POST /post with an uploaded file and a verifying token renames
the stored upload to its generated path with a dot plus the original
filename's extension (the suffix after its last dot) appended, creates a
post whose cover is the renamed path and whose author is the token's user
id, and returns that post. -/
theorem create_post_renames_and_creates
    (env : Env) (s : String) (fs : FileSys) (st : PostStore) (info : JwtPayload)
    (f : UploadedFile) (entry : String × Nat)
    (base suffix : List Char) (title summary content : String)
    (hs : env.secret = some s)
    (hfs : fs.find? (fun e => e.1 = f.path) = some entry)
    (hname : f.originalname.toList = base ++ '.' :: suffix)
    (hext : '.' ∉ suffix) :
    renamedPath f = f.path ++ "." ++ String.mk suffix
  ∧ createPostHandler env fs st (some f) (some (jwtSign info s)) title summary content
      = .ok (⟨200, ⟨st.nextId, title, summary, content, renamedPath f,
                info.id, st.nextTime⟩⟩,
             fs.filter (fun x => x.1 != f.path) ++ [(renamedPath f, entry.2)],
             ⟨st.posts ++ [⟨st.nextId, title, summary, content, renamedPath f,
                info.id, st.nextTime⟩],
              st.nextId + 1, st.nextTime + 1⟩) := by
  have h1 : renamedPath f = f.path ++ "." ++ String.mk suffix := by
    rw [renamedPath, hname, getLastD_splitChar_ext '.' base suffix hext]
  refine ⟨h1, ?_⟩
  simp [createPostHandler, renameSync, hfs, hs, jwtVerify, jwtSign, postCreate]

/-- Witness for C10: uploading "photo.png" stored at "up/x" with a token of
user 7 against an empty post store. -/
theorem create_post_renames_and_creates_witness :
    renamedPath ⟨"photo.png", "up/x"⟩ = "up/x" ++ "." ++ String.mk "png".toList
  ∧ createPostHandler ⟨some "k"⟩ [("up/x", 3)] ⟨[], 0, 0⟩ (some ⟨"photo.png", "up/x"⟩)
        (some (jwtSign ⟨"bob", 7⟩ "k")) "T" "S" "C"
      = .ok (⟨200, ⟨0, "T", "S", "C", renamedPath ⟨"photo.png", "up/x"⟩, 7, 0⟩⟩,
             ([("up/x", 3)] : FileSys).filter (fun x => x.1 != "up/x")
               ++ [(renamedPath ⟨"photo.png", "up/x"⟩, 3)],
             ⟨[⟨0, "T", "S", "C", renamedPath ⟨"photo.png", "up/x"⟩, 7, 0⟩], 1, 1⟩) :=
  create_post_renames_and_creates ⟨some "k"⟩ "k" [("up/x", 3)] ⟨[], 0, 0⟩ ⟨"bob", 7⟩
    ⟨"photo.png", "up/x"⟩ ("up/x", 3) "photo".toList "png".toList "T" "S" "C"
    rfl (by decide) (by decide) (by decide)
